import Mathlib

/-
  Verification of the compiler-oracle directive store and parser
  (hotspot/share/compiler/compilerOracle.cpp).

  The embedding models lines of input as lists of characters, the directive
  store as a list of typed records together with the two companion flags
  (any_set, _quiet), and the sscanf-driven scanners as explicit token
  functions that report how many characters they consumed.
-/

namespace CompilerOracle

/-! ## Characters and tokens -/

/-- The scanset whitespace used by the scanners: a space or a tab
(the sscanf sets are written as [ \t] throughout the source). -/
def isWsST (c : Char) : Bool := c = ' ' || c = '\t'

/-- skip_whitespace (compilerOracle.cpp): number of leading space/tab
characters, obtained in the source with sscanf of a [ \t] set and a byte count. -/
def skip_whitespace (l : List Char) : Nat := (l.takeWhile isWsST).length

/-- A [a-zA-Z0-9] character, the set used for command and flag names. -/
def isAlnumAscii (c : Char) : Bool := c.isAlpha || c.isDigit

/-- A token of at most 255 characters from the set [a-zA-Z0-9],
as read by sscanf with a bounded scanset. -/
def alnumToken (l : List Char) : List Char := (l.takeWhile isAlnumAscii).take 255

/-- A token of at most 255 characters from the set [a-zA-Z], used by the
boolean value scanner. -/
def alphaToken (l : List Char) : List Char := (l.takeWhile Char.isAlpha).take 255

/-- A token of at most 255 characters from the set [_a-zA-Z0-9], used by the
ccstr value scanner. -/
def ccstrToken (l : List Char) : List Char :=
  (l.takeWhile fun c => c.isAlpha || c.isDigit || c = '_').take 255

/-! ## Directive kinds, value kinds and the static tables -/

/-- enum CompileCommand.  Modelled from the spec: the enumerators come from the
COMPILECOMMAND_OPTIONS macro of the missing header compilerOracle.hpp; the
spec (sections 3 and 6) and the usage text of the source name exactly these
commands. -/
inductive CompileCommand where
  | Break | Print | Exclude | Inline | DontInline | CompileOnly | Log
  | Option | Quiet | Help | Unknown
deriving DecidableEq, Repr

/-- enum class OptionType (the closed set of value kinds). -/
inductive OptionType where
  | Intx | Uintx | Bool | Ccstr | Ccstrlist | Double | Unknown
deriving DecidableEq, Repr

/-- The grammar variants of the directive table (enum CompileCommandVariant).
Modelled from the spec, section 4.3. -/
inductive Variant where
  | Basic | Standard | Trivial | Legacy
deriving DecidableEq, Repr

/-- command_names: the display-name table. Modelled from the spec and from the
usage text printed by the source. -/
def command_name : CompileCommand → String
  | .Break => "break"
  | .Print => "print"
  | .Exclude => "exclude"
  | .Inline => "inline"
  | .DontInline => "dontinline"
  | .CompileOnly => "compileonly"
  | .Log => "log"
  | .Option => "option"
  | .Quiet => "quiet"
  | .Help => "help"
  | .Unknown => "unknown"

/-- optiontype_names (display names of the value kinds). -/
def optiontype_name : OptionType → String
  | .Intx => "intx"
  | .Uintx => "uintx"
  | .Bool => "bool"
  | .Ccstr => "ccstr"
  | .Ccstrlist => "ccstrlist"
  | .Double => "double"
  | .Unknown => "unknown"

/-- command2types: the directive-kind to value-kind table.  Modelled from the
spec: every pattern-taking command evidenced in this source is boolean valued;
the trivial commands and the option command carry no value of their own. -/
def command2types : CompileCommand → OptionType
  | .Option => .Unknown
  | .Quiet => .Unknown
  | .Help => .Unknown
  | .Unknown => .Unknown
  | _ => .Bool

/-- command2variant: the directive-kind to grammar-variant table.  Modelled
from the spec, section 4.3. -/
def command2variant : CompileCommand → Variant
  | .Option => .Legacy
  | .Quiet => .Trivial
  | .Help => .Trivial
  | .Unknown => .Legacy
  | _ => .Basic

/-- The list of real commands, in the order used when scanning a name. -/
def allCommands : List CompileCommand :=
  [.Break, .Print, .Exclude, .Inline, .DontInline, .CompileOnly, .Log,
   .Option, .Quiet, .Help]

/-- The name-comparison loop of parse_command_name: find the command whose
display name equals the scanned token. -/
def lookup_command (s : String) : CompileCommand :=
  match allCommands.find? (fun c => command_name c == s) with
  | some c => c
  | none => .Unknown

/-- parse_command_name: scan a [a-zA-Z0-9] token (at most 255 characters) and
look it up in the name table; returns the command and the bytes consumed. -/
def parse_command_name (line : List Char) : CompileCommand × Nat :=
  let tok := alnumToken line
  if tok = [] then (.Unknown, 0)
  else (lookup_command (String.mk tok), tok.length)

/-- parse_option_type: the explicit type token of a type (2) option clause. -/
def parse_option_type (s : String) : OptionType :=
  if s = "intx" then .Intx
  else if s = "uintx" then .Uintx
  else if s = "bool" then .Bool
  else if s = "ccstr" then .Ccstr
  else if s = "ccstrlist" then .Ccstrlist
  else if s = "double" then .Double
  else .Unknown

/-- Ccstrlist options are stored as Ccstr (add_option_string and
has_option_value both perform this normalization). -/
def normType (t : OptionType) : OptionType :=
  if t = .Ccstrlist then .Ccstr else t

/-- First occurrence of a character sequence inside a list (the strstr
primitive): returns the part before the occurrence and the part after it. -/
def findSubstr : List Char → List Char → Option (List Char × List Char)
  | l, sep =>
    if sep.isPrefixOf l then some ([], l.drop sep.length)
    else
      match l with
      | [] => none
      | c :: t =>
        match findSubstr t sep with
        | some (pre, post) => some (c :: pre, post)
        | none => none

/-- Whether a character sequence occurs inside a list. -/
def containsSubstr (l sep : List Char) : Bool := (findSubstr l sep).isSome

/-! ## The method matcher (pattern) model -/

/-- MethodMatcher::Mode.  Modelled from the spec: an owner or member name
matcher is exact, a leading star makes it a suffix match, a trailing star a
match on an initial segment, both stars a substring match, a lone star any. -/
inductive Mode where
  | Exact | Prefix | Suffix | Substring | Any
deriving DecidableEq, Repr

/-- A concrete target: owner name, member name and signature, the data a
methodHandle exposes to the matcher. -/
structure MethodDescr where
  klass : String
  method : String
  sig : String
deriving DecidableEq, Repr

/-- The pattern fields of MethodMatcher (class name and mode, method name and
mode, optional signature).  Modelled from the spec, section 3. -/
structure BaseMatcher where
  class_name : String
  class_mode : Mode
  method_name : String
  method_mode : Mode
  signature : Option String
deriving DecidableEq, Repr

/-- Modelled from the spec: one name matcher applied to one candidate name. -/
def modeMatches (m : Mode) (pat cand : String) : Bool :=
  match m with
  | .Exact => cand == pat
  | .Prefix => pat.toList.isPrefixOf cand.toList
  | .Suffix => pat.toList.isSuffixOf cand.toList
  | .Substring => containsSubstr cand.toList pat.toList
  | .Any => true

/-- Modelled from the spec: MethodMatcher::matches, the external
pattern-matching capability consumed by the store. -/
def matchesTarget (m : BaseMatcher) (t : MethodDescr) : Bool :=
  modeMatches m.class_mode m.class_name t.klass &&
  modeMatches m.method_mode m.method_name t.method &&
  (match m.signature with
   | none => true
   | some s => s == t.sig)

/-! ## Values, records and the store -/

/-- The tagged union _u of TypedMethodOptionMatcher.  A double value is
represented by the two decimal digit runs that scan_value reassembles as
integer and fraction part (the floating-point conversion itself is not
modelled). zero is the memset default of the constructor. -/
inductive CValue where
  | boolV (b : Bool)
  | intxV (i : Int)
  | uintxV (n : Nat)
  | ccstrV (s : String)
  | doubleV (ipart fpart : String)
  | zero
deriving DecidableEq, Repr

/-- TypedMethodOptionMatcher: the pattern together with the directive kind,
the stored value kind and the value. -/
structure TypedMethodOptionMatcher where
  matcher : BaseMatcher
  option : CompileCommand
  type : OptionType
  value : CValue
deriving DecidableEq, Repr

/-- The process-wide parser state: the head-linked option_list together with
the companion statics any_set and _quiet. -/
structure OracleState where
  option_list : List TypedMethodOptionMatcher
  any_set : Bool
  quiet : Bool
deriving DecidableEq, Repr

/-- The state before any line is parsed. -/
def initState : OracleState := ⟨[], false, false⟩

/-- Console output, tagged by origin.  print_parse_error produces a
parseError carrying the error text, the unrecognized-command banner an
unrecognized message; echoes and warnings are never errors. -/
inductive Msg where
  | parseError (e : String)
  | unrecognized
  | warning (s : String)
  | echo (cmd : CompileCommand)
  | usage
deriving DecidableEq, Repr

/-- Whether a console message reports a rejected line. -/
def Msg.isError : Msg → Bool
  | .parseError _ => true
  | .unrecognized => true
  | _ => false

/-- The console warning add_option_string emits when a log directive is
added while the LogCompilation flag (logC) is off. -/
def logWarnMsgs (logC : Bool) (cc : CompileCommand) : List Msg :=
  if cc = .Log && !logC then
    [.warning "+LogCompilation must be enabled in order for individual methods to be logged"]
  else []

/-- add_option_string: prepend a freshly initialized record to the head of
option_list and set any_set unless the kind is DontInline, Inline or Log.
The debug assertions of the source (no circular list, value kind sanity)
are not modelled; logC is the LogCompilation global. -/
def add_option_string (logC : Bool) (st : OracleState) (pat : BaseMatcher)
    (cc : CompileCommand) (v : CValue) : OracleState × List Msg :=
  let msgs : List Msg := logWarnMsgs logC cc
  let ty := normType (command2types cc)
  let r : TypedMethodOptionMatcher := ⟨pat, cc, ty, v⟩
  ({ option_list := r :: st.option_list
     any_set := st.any_set ||
       (!(cc == .DontInline) && !(cc == .Inline) && !(cc == .Log))
     quiet := st.quiet }, msgs)

/-! ## The query API -/

/-- TypedMethodOptionMatcher::match: walk the chain from the head and return
the first record whose kind equals the requested kind and whose pattern
accepts the target.  The type parameter is received but never consulted,
exactly as in the source. -/
def matchTM : List TypedMethodOptionMatcher → MethodDescr → CompileCommand →
    OptionType → Option TypedMethodOptionMatcher
  | [], _, _, _ => none
  | r :: rest, t, cc, ty =>
    if r.option = cc then
      if matchesTarget r.matcher t then some r else matchTM rest t cc ty
    else matchTM rest t cc ty

/-- The outcome of the typed query: a value was found, no record applied, or
the strict-mode type assertion fired. -/
inductive QueryResult where
  | found (v : CValue)
  | absent
  | assertFail
deriving DecidableEq, Repr

/-- CompilerOracle::has_option_value.  sought is the value kind requested by
the caller (get_type_for of the template parameter); in lenient mode
(verify true) a kind mismatch reports absent, in strict mode it is an
assertion failure. -/
def has_option_value (sought : OptionType) (st : OracleState) (t : MethodDescr)
    (cc : CompileCommand) (verify : Bool) : QueryResult :=
  let ty := normType (command2types cc)
  if verify then
    if sought ≠ ty then .absent
    else
      match matchTM st.option_list t cc ty with
      | some m => .found m.value
      | none => .absent
  else
    if sought ≠ ty then .assertFail
    else
      match matchTM st.option_list t cc ty with
      | some m => .found m.value
      | none => .absent

/-- check_predicate: query the boolean value of the first applicable record
of the given kind, defaulting to false.  All call sites use kinds whose value
kind is Bool, so the non-boolean fallthrough is unreachable. -/
def check_predicate (st : OracleState) (cc : CompileCommand) (t : MethodDescr) : Bool :=
  match has_option_value .Bool st t cc false with
  | .found (.boolV b) => b
  | _ => false

/-- has_command: whether at least one record of the given kind exists,
independent of any target. -/
def has_command : List TypedMethodOptionMatcher → CompileCommand → Bool
  | [], _ => false
  | r :: rest, cc => if r.option = cc then true else has_command rest cc

/-- CompilerOracle::has_any_option. -/
def has_any_option (st : OracleState) : Bool := st.any_set

/-- CompilerOracle::should_exclude. -/
def should_exclude (st : OracleState) (t : MethodDescr) : Bool :=
  if check_predicate st .Exclude t then true
  else if has_command st.option_list .CompileOnly then
    !(check_predicate st .CompileOnly t)
  else false

/-- CompilerOracle::should_log; logC is the LogCompilation global flag. -/
def should_log (logC : Bool) (st : OracleState) (t : MethodDescr) : Bool :=
  if !logC then false
  else if !(has_command st.option_list .Log) then true
  else check_predicate st .Log t

/-! ## Value scanners (scan_value and its helpers) -/

/-- Numeric value of a run of decimal digits. -/
def digitsVal (ds : List Char) : Nat :=
  ds.foldl (fun acc c => 10 * acc + (c.toNat - 48)) 0

/-- The intx scan (sscanf with the platform long format): an optional sign
followed by decimal digits.  Overflow saturates at the 64-bit bounds, the
strtol behaviour underlying the glibc scanner.  Returns the characters
consumed and the value. -/
def scanIntx (l : List Char) : Option (Nat × Int) :=
  let signLen : Nat := match l.head? with
    | some '-' => 1
    | some '+' => 1
    | _ => 0
  let neg : Bool := l.head? = some '-'
  let ds := (l.drop signLen).takeWhile Char.isDigit
  if ds = [] then none
  else
    let raw : Int := if neg then -(digitsVal ds : Int) else (digitsVal ds : Int)
    let v : Int := max (-(2 ^ 63)) (min (2 ^ 63 - 1) raw)
    some (signLen + ds.length, v)

/-- The uintx scan (platform unsigned long format): an optional sign followed
by decimal digits; a negative input is negated in the unsigned range after
saturation, the strtoul behaviour. -/
def scanUintx (l : List Char) : Option (Nat × Nat) :=
  let signLen : Nat := match l.head? with
    | some '-' => 1
    | some '+' => 1
    | _ => 0
  let neg : Bool := l.head? = some '-'
  let ds := (l.drop signLen).takeWhile Char.isDigit
  if ds = [] then none
  else
    let sat := min (digitsVal ds) (2 ^ 64 - 1)
    let v := if neg then (2 ^ 64 - sat) % 2 ^ 64 else sat
    some (signLen + ds.length, v)

/-- The double scan: two decimal runs separated by a nonempty run of space,
tab or slash characters (the decimal separator was replaced upstream); the
two digit runs are returned, standing for the reassembled number. -/
def scanDouble (l : List Char) : Option (Nat × String × String) :=
  let d1 := (l.takeWhile Char.isDigit).take 255
  if d1 = [] then none
  else
    let l1 := l.drop d1.length
    let seps := l1.takeWhile fun c => c = ' ' || c = '/' || c = '\t'
    if seps = [] then none
    else
      let d2 := ((l1.drop seps.length).takeWhile Char.isDigit).take 255
      if d2 = [] then none
      else some (d1.length + seps.length + d2.length, String.mk d1, String.mk d2)

/-! ### The ccstrlist accumulation buffer

scan_value accumulates a string list into one resource-area character array
through raw pointer arithmetic.  The array is modelled as a map from offsets
to characters, with unwritten cells left undefined, so that the exact writes
of the source (token characters, terminating NUL, and the space overwrite at
end_value) are reproduced. -/

/-- The character set [_a-zA-Z0-9+\-] of a string-list token (the backslash
is a literal member of the sscanf scanset). -/
def isListChar (c : Char) : Bool :=
  c.isAlpha || c.isDigit || c = '_' || c = '+' || c = '-' || c = '\\'

/-- A string-list token: at most 255 characters from the list charset. -/
def ccTok (l : List Char) : List Char := (l.takeWhile isListChar).take 255

/-- The accumulation array: offset to written character, none = unwritten. -/
def Buf : Type := Nat → Option Char

/-- Write one character at an offset. -/
def writeChar (b : Buf) (i : Nat) (c : Char) : Buf :=
  fun j => if j = i then some c else b j

/-- The sscanf store of a token: its characters from the given offset,
followed by a terminating NUL. -/
def writeTok (b : Buf) (i : Nat) : List Char → Buf
  | [] => writeChar b i (Char.ofNat 0)
  | c :: t => writeTok (writeChar b i c) (i + 1) t

/-- Read the C string stored at offset 0: characters up to the first NUL;
none if an unwritten cell is reached first or the fuel runs out. -/
def readBuf (b : Buf) : Nat → Nat → Option (List Char)
  | _, 0 => none
  | i, fuel + 1 =>
    match b i with
    | none => none
    | some c =>
      if c = Char.ofNat 0 then some []
      else
        match readBuf b (i + 1) fuel with
        | some s => some (c :: s)
        | none => none

/-- The while loop of the Ccstrlist branch: repeatedly scan a whitespace run
followed by a token; the token is written at next_value, the previous NUL
position recorded in end_value is overwritten with a space, and both cursors
advance by the full byte count of the scan, whitespace included. -/
def ccLoop : Nat → Buf → Nat → Nat → List Char → Nat → Buf × Nat
  | 0, b, _, _, _, n => (b, n)
  | fuel + 1, b, nv, ev, l, n =>
    let ws := l.takeWhile isWsST
    if ws = [] then (b, n)
    else
      let tok := ccTok (l.drop ws.length)
      if tok = [] then (b, n)
      else
        let br := ws.length + tok.length
        let b1 := writeTok b nv tok
        let b2 := writeChar b1 ev ' '
        ccLoop fuel b2 (nv + br) (nv + br - 1) (l.drop br) (n + br)

/-- The Ccstrlist branch of scan_value: scan the first token, then accumulate
further whitespace-separated tokens; the stored value is whatever C string
the final buffer holds at offset 0.  Returns none when the very first token
scan fails; the inner option is none if reading the stored string would
touch an unwritten cell. -/
def ccstrlistScan (l : List Char) : Option (Nat × Option String) :=
  let tok := ccTok l
  if tok = [] then none
  else
    let b0 := writeTok (fun _ => none) 0 tok
    let res := ccLoop (l.length + 1) b0 (tok.length + 1) tok.length
                 (l.drop tok.length) tok.length
    some (res.2, (readBuf res.1 0 (l.length + 2)).map String.mk)

/-! ### scan_value -/

/-- The outcome of scan_value: a record committed (with the bytes consumed,
the new state and any console output), an error message left in errorbuf, or
undefined behaviour (the record pointer was null when the value committed). -/
inductive SVOut where
  | ok (consumed : Nat) (st : OracleState) (msgs : List Msg)
  | err (e : String)
  | crash
deriving DecidableEq, Repr

/-- The errorbuf text shared by the value scanners. -/
def valueErr (cc : CompileCommand) (ty : OptionType) : String :=
  "  Value cannot be read for flag " ++ command_name cc ++ " of type " ++ optiontype_name ty

/-- scan_value: skip leading whitespace, then scan one value of the given
kind and commit a record through add_option_string; on a scan failure leave
an error message and commit nothing.  matcher is the record being filled in
(null in the broken Standard path when the pattern failed to parse). -/
def scan_value (ty : OptionType) (line : List Char) (matcher : Option BaseMatcher)
    (cc : CompileCommand) (st : OracleState) (logC : Bool) : SVOut :=
  let skipped := skip_whitespace line
  let l := line.drop skipped
  let commit : Nat → CValue → SVOut := fun n v =>
    match matcher with
    | some pat =>
      let a := add_option_string logC st pat cc v
      .ok n a.1 a.2
    | none => .crash
  match ty with
  | .Intx =>
    match scanIntx l with
    | some (n, v) => commit (skipped + n) (.intxV v)
    | none => .err (valueErr cc ty ++ " ")
  | .Uintx =>
    match scanUintx l with
    | some (n, v) => commit (skipped + n) (.uintxV v)
    | none => .err (valueErr cc ty)
  | .Ccstr =>
    let tok := ccstrToken l
    if tok = [] then .err (valueErr cc ty)
    else commit (skipped + tok.length) (.ccstrV (String.mk tok))
  | .Ccstrlist =>
    match ccstrlistScan l with
    | some (n, some s) => commit (skipped + n) (.ccstrV s)
    | some (_, none) => .crash
    | none => .err (valueErr cc ty)
  | .Bool =>
    if l = [] then commit skipped (.boolV true)
    else
      let tok := alphaToken l
      if tok = [] then .err (valueErr cc ty)
      else if tok = "true".toList then commit (skipped + tok.length) (.boolV true)
      else if tok = "false".toList then commit (skipped + tok.length) (.boolV false)
      else .err (valueErr cc ty)
  | .Double =>
    match scanDouble l with
    | some (n, ip, fp) => commit (skipped + n) (.doubleV ip fp)
    | none => .err (valueErr cc ty)
  | _ => .err ("  Type " ++ optiontype_name ty ++ " not supported ")

/-- scan_flag_and_value: read the flag name of a type (2) option clause
(sscanf demands at least one whitespace character before it), skip one
separator character, resolve and type-check the flag, then scan its value. -/
def scan_flag_and_value (ty : OptionType) (line : List Char) (pat : BaseMatcher)
    (st : OracleState) (logC : Bool) : SVOut :=
  let ws := line.takeWhile isWsST
  let flag := alnumToken (line.drop ws.length)
  if ws = [] || flag = [] then
    .err ("  Flag name for type " ++ optiontype_name ty ++ " should be alphanumeric ")
  else
    let pre := ws.length + flag.length + 1
    let l1 := (line.drop (ws.length + flag.length)).drop 1
    match lookup_command (String.mk flag) with
    | .Unknown => .err ("  Flag name unknown: " ++ String.mk flag)
    | cc =>
      if command2types cc ≠ ty then
        .err ("  Flag " ++ String.mk flag ++ " with type " ++
          optiontype_name (command2types cc) ++ " does not match supplied type " ++
          optiontype_name ty)
      else
        match scan_value ty l1 (some pat) cc st logC with
        | .ok n st1 msgs => .ok (pre + n) st1 msgs
        | out => out

/-! ## Pattern parsing and the line parser -/

/-- Modelled from the spec: MethodMatcher::parse_method_pattern, the external
pattern parser (methodMatcher.cpp is not part of the analysed slice).  Per
the spec it tolerates a separating space or comma before the pattern, reads
an owner/member pattern split at a double colon or at a dot, and supports
leading and trailing stars on either name; signatures are not modelled.
Returns the matcher and the characters consumed, or an error message. -/
def parse_name_pattern (l : List Char) : String × Mode :=
  if l = ['*'] then ("", .Any)
  else if l.head? = some '*' ∧ l.getLast? = some '*' then
    (String.mk (l.drop 1).dropLast, .Substring)
  else if l.head? = some '*' then (String.mk (l.drop 1), .Suffix)
  else if l.getLast? = some '*' then (String.mk l.dropLast, .Prefix)
  else (String.mk l, .Exact)

/-- Modelled from the spec: build the two name matchers of a pattern token. -/
def mkBase (cls mth : List Char) : BaseMatcher :=
  let c := parse_name_pattern cls
  let m := parse_name_pattern mth
  ⟨c.1, c.2, m.1, m.2, none⟩

/-- Modelled from the spec: parse one method pattern from the line. -/
def parse_method_pattern (line : List Char) : Except String (BaseMatcher × Nat) :=
  let lead := (line.takeWhile fun c => isWsST c || c = ',').length
  let tok := (line.drop lead).takeWhile fun c => !(isWsST c || c = ',')
  if tok = [] then .error "Could not parse method pattern"
  else
    let consumed := lead + tok.length
    match findSubstr tok (':' :: [':']) with
    | some (cls, mth) => .ok (mkBase cls mth, consumed)
    | none =>
      match findSubstr tok ['.'] with
      | some (cls, mth) => .ok (mkBase cls mth, consumed)
      | none => .error "Could not parse method pattern"

/-- The outcome of parsing one line: the new state and console output, or
undefined behaviour. -/
inductive POut where
  | ok (st : OracleState) (msgs : List Msg)
  | crash
deriving DecidableEq, Repr

/-- The trailing-clause while loop of the option command: scan clause tokens
until none matches; a type token starts a type (2) clause through
scan_flag_and_value, any other known command name is a type (1) boolean
shorthand.  A failing clause returns at once, keeping the records committed
by the earlier clauses of the same line. -/
def optionClauses : Nat → Bool → BaseMatcher → OracleState → List Char →
    List Msg → POut
  | 0, _, _, _, _, _ => .crash
  | fuel + 1, logC, arch, st, line, acc =>
    let tok := alnumToken line
    if tok = [] then .ok st acc
    else
      let l1 := line.drop tok.length
      let ty := parse_option_type (String.mk tok)
      if ty ≠ .Unknown then
        match scan_flag_and_value ty l1 arch st logC with
        | .err e => .ok st (acc ++ [.parseError e])
        | .crash => .crash
        | .ok n st1 msgs =>
          let acc1 := acc ++ msgs ++ (if !st1.quiet then [.echo .Option] else [])
          let l2 := l1.drop n
          optionClauses fuel logC arch st1 (l2.drop (skip_whitespace l2)) acc1
      else
        match lookup_command (String.mk tok) with
        | .Unknown => .ok st (acc ++ [.unrecognized])
        | cc =>
          let a := add_option_string logC st arch cc (.boolV true)
          let acc1 := acc ++ a.2 ++ (if !a.1.quiet then [.echo .Option] else [])
          optionClauses fuel logC arch a.1 (l1.drop (skip_whitespace l1)) acc1

/-- The option-command path of parse_from_line: skip the comma, parse the
shared pattern, then run the clause loop. -/
def parseOptionLine (logC : Bool) (st : OracleState) (rest : List Char) : POut :=
  let l0 := rest.drop 1
  match parse_method_pattern l0 with
  | .error e => .ok st [.parseError e]
  | .ok (arch, n) =>
    let l1 := l0.drop n
    optionClauses (l1.length + 1) logC arch st (l1.drop (skip_whitespace l1)) []

/-- The Standard-variant path of parse_from_line: skip the comma, parse the
pattern and scan the value.  The source never checks the pattern error
before calling scan_value, so a failed pattern hands scan_value a null
record: a successful value scan then dereferences null (crash). -/
def parseStandard (logC : Bool) (st : OracleState) (cmd : CompileCommand)
    (rest : List Char) : POut :=
  let ty := command2types cmd
  let l0 := rest.drop 1
  let pr := parse_method_pattern l0
  let mo : Option BaseMatcher := match pr with
    | .ok (p, _) => some p
    | .error _ => none
  let consumed : Nat := match pr with
    | .ok (_, n) => n
    | .error _ => 0
  match scan_value ty (l0.drop consumed) mo cmd st logC with
  | .ok _ st1 msgs => .ok st1 (msgs ++ (if !st1.quiet then [.echo cmd] else []))
  | .err e => .ok st [.parseError e]
  | .crash => .crash

/-- The Basic-variant path of parse_from_line: parse the pattern and commit
one boolean record with the value true; a pattern failure rejects the line
with no record committed. -/
def parseBasic (logC : Bool) (st : OracleState) (cmd : CompileCommand)
    (rest : List Char) : POut :=
  match parse_method_pattern rest with
  | .error e => .ok st [.parseError e]
  | .ok (pat, _) =>
    let a := add_option_string logC st pat cmd (.boolV true)
    .ok a.1 (a.2 ++ (if !a.1.quiet then [.echo cmd] else []))

/-- The command dispatch of parse_from_line, after the leading command name
has been read and skipped. -/
def dispatch (logC : Bool) (st : OracleState) (cmd : CompileCommand)
    (rest : List Char) : POut :=
  if cmd = .Unknown then .ok st [.unrecognized]
  else if cmd = .Quiet then .ok { st with quiet := true } []
  else if cmd = .Help then .ok st [.usage]
  else if cmd = .Option then parseOptionLine logC st rest
  else
    match command2variant cmd with
    | .Basic => parseBasic logC st cmd rest
    | .Standard => parseStandard logC st cmd rest
    | _ => .crash

/-- CompilerOracle::parse_from_line: empty lines and lines starting with a
hash return at once; otherwise the leading command name selects the grammar. -/
def parse_from_line (logC : Bool) (st : OracleState) (line : List Char) : POut :=
  if line = [] then .ok st []
  else if line.head? = some '#' then .ok st []
  else
    let pc := parse_command_name line
    dispatch logC st pc.1 (line.drop pc.2)

/-! ## The legacy compatibility parser (parse_compile_only) -/

/-- The C isspace set. -/
def isCSpace (c : Char) : Bool :=
  c = ' ' || c = '\t' || c = '\n' || c = '\r' || c = Char.ofNat 11 || c = Char.ofNat 12

/-- One pass of the parse_compile_only while loop: read a name (up to 1024
characters, stopping at the separator, a comma, whitespace or the end,
translating every dot to a slash), assign it to the pending class or method
name, derive the class match mode, commit a compile-only record when a
terminator is reached, and advance one character.  Returns none at the
ShouldNotReachHere of the source. -/
def coStep (logC : Bool) (sep : Char) (st : OracleState)
    (cn mn : Option String) (l : List Char) :
    Option (OracleState × Option String × Option String × List Char) :=
  let raw := ((l.takeWhile fun c => !(c = sep || c = ',' || isCSpace c)).take 1024)
  let name := raw.map fun c => if c = '.' then '/' else c
  let rest := l.drop raw.length
  let assigned : Option String × Option String :=
    if raw = [] then (cn, mn)
    else match cn with
      | none => (some (String.mk name), mn)
      | some _ => (cn, some (String.mk name))
  let cn1 := assigned.1
  let mn1 := assigned.2
  let branch : Option (Option String × Mode) :=
    if rest.head? = some sep then
      match cn1 with
      | none => some (some "", .Any)
      | some _ => some (cn1, .Exact)
    else
      match cn1 with
      | none => none
      | some s => some (cn1, if s = "" then .Any else .Exact)
  match branch with
  | none => none
  | some (cn2, cmatch) =>
    let commit := rest.head? = some ',' ∨ rest = [] ∨
      (rest.head? = some '.' ∧ rest.tail = [])
    let l2 := if rest = [] then ([] : List Char) else rest.tail
    if commit then
      let mm : String × Mode :=
        match mn1 with
        | none => ("", if rest.head? = some sep then .Exact else .Any)
        | some m => (m, .Exact)
      let pat : BaseMatcher := ⟨cn2.getD "", cmatch, mm.1, mm.2, none⟩
      let st1 := (add_option_string logC st pat .CompileOnly (.boolV true)).1
      some (st1, none, none, l2)
    else
      some (st, cn2, mn1, l2)

/-- The while loop of parse_compile_only, with fuel bounded by the line
length (each pass consumes at least one character). -/
def coLoop (logC : Bool) (sep : Char) :
    Nat → OracleState → Option String → Option String → List Char →
    Option OracleState
  | 0, _, _, _, _ => none
  | fuel + 1, st, cn, mn, l =>
    if l = [] then some st
    else
      match coStep logC sep st cn mn l with
      | none => none
      | some (st1, cn1, mn1, l1) => coLoop logC sep fuel st1 cn1 mn1 l1

/-- CompilerOracle::parse_compile_only: the separator is a colon when a
double colon occurs anywhere in the input, otherwise a dot; each
comma-separated item yields one boolean compile-only record.  Diagnostic
prints are not modelled.  none stands for the ShouldNotReachHere path. -/
def parse_compile_only (logC : Bool) (st : OracleState) (line : List Char) :
    Option OracleState :=
  let sep := if containsSubstr line (':' :: [':']) then ':' else '.'
  coLoop logC sep (line.length + 1) st none none line

/-! ## Helper lemmas -/

/-- The chain walk of TypedMethodOptionMatcher::match is a first-match
search over the list. -/
theorem matchTM_eq_find (l : List TypedMethodOptionMatcher) (t : MethodDescr)
    (cc : CompileCommand) (ty : OptionType) :
    matchTM l t cc ty =
      l.find? fun r => r.option == cc && matchesTarget r.matcher t := by
  induction l with
  | nil => rfl
  | cons r rest ih =>
    by_cases h1 : r.option = cc
    · by_cases h2 : matchesTarget r.matcher t
      · simp [matchTM, List.find?, h1, h2]
      · simp [matchTM, List.find?, h1, h2, ih]
    · have hb : (r.option == cc) = false := by simp [h1]
      simp [matchTM, List.find?, h1, hb, ih]

/-- has_command is an existence test over the chain. -/
theorem has_command_eq_any (l : List TypedMethodOptionMatcher)
    (cc : CompileCommand) :
    has_command l cc = l.any fun r => r.option == cc := by
  induction l with
  | nil => rfl
  | cons r rest ih =>
    by_cases h : r.option = cc
    · simp [has_command, h]
    · simp [has_command, h, ih]

/-- For a boolean-kinded command whose records all carry the value true,
check_predicate is exactly the existence of an applicable record. -/
theorem check_predicate_eq_any (st : OracleState) (cc : CompileCommand)
    (t : MethodDescr)
    (hty : normType (command2types cc) = .Bool)
    (hval : ∀ r ∈ st.option_list, r.option = cc → r.value = .boolV true) :
    check_predicate st cc t =
      st.option_list.any fun r => r.option == cc && matchesTarget r.matcher t := by
  unfold check_predicate has_option_value
  simp only [hty, matchTM_eq_find]
  cases hf : st.option_list.find? fun r => r.option == cc && matchesTarget r.matcher t with
  | none =>
    have hany : (st.option_list.any fun r => r.option == cc && matchesTarget r.matcher t) = false := by
      rw [List.any_eq_false]
      intro x hx
      have := List.find?_eq_none.mp hf x hx
      simpa using this
    simp [hany]
  | some m =>
    have hp := List.find?_some hf
    have hm := List.mem_of_find?_eq_some hf
    have hopt : m.option = cc := by
      have := (Bool.and_eq_true _ _).mp hp
      exact beq_iff_eq.mp this.1
    have hv : m.value = .boolV true := hval m hm hopt
    have hany : (st.option_list.any fun r => r.option == cc && matchesTarget r.matcher t) = true :=
      List.any_eq_true.mpr ⟨m, hm, hp⟩
    simp [hany, hv]

/-- The log warning is never an error message. -/
theorem logWarn_echo_no_error (logC : Bool) (cc cc2 : CompileCommand) (b : Bool) :
    ((logWarnMsgs logC cc) ++ (if b then [Msg.echo cc2] else [])).any Msg.isError
      = false := by
  unfold logWarnMsgs
  split_ifs <;> simp [Msg.isError]

/-- Whenever scan_value commits, its console output is exactly the possible
log warning of add_option_string. -/
theorem scan_value_ok_msgs (ty : OptionType) (line : List Char)
    (mo : Option BaseMatcher) (cc : CompileCommand) (st : OracleState)
    (logC : Bool) (n : Nat) (st1 : OracleState) (m : List Msg)
    (h : scan_value ty line mo cc st logC = .ok n st1 m) :
    m = logWarnMsgs logC cc := by
  simp only [scan_value] at h
  repeat' split at h
  all_goals simp_all [add_option_string]

/-- A Basic-variant line that is rejected leaves the store untouched. -/
theorem parseBasic_error_unchanged (logC : Bool) (st : OracleState)
    (cmd : CompileCommand) (rest : List Char) (st' : OracleState)
    (msgs : List Msg)
    (heq : parseBasic logC st cmd rest = .ok st' msgs)
    (herr : msgs.any Msg.isError = true) : st' = st := by
  unfold parseBasic at heq
  split at heq
  · simp only [POut.ok.injEq] at heq
    exact heq.1.symm
  · exfalso
    simp only [POut.ok.injEq, add_option_string] at heq
    obtain ⟨h1, h2⟩ := heq
    rw [← h2] at herr
    rw [logWarn_echo_no_error] at herr
    exact Bool.false_ne_true herr

/-- A Standard-variant line that is rejected leaves the store untouched. -/
theorem parseStandard_error_unchanged (logC : Bool) (st : OracleState)
    (cmd : CompileCommand) (rest : List Char) (st' : OracleState)
    (msgs : List Msg)
    (heq : parseStandard logC st cmd rest = .ok st' msgs)
    (herr : msgs.any Msg.isError = true) : st' = st := by
  simp only [parseStandard] at heq
  split at heq
  · rename_i n st1 m hsv
    exfalso
    have hm := scan_value_ok_msgs _ _ _ _ _ _ _ _ _ hsv
    simp only [POut.ok.injEq] at heq
    obtain ⟨h1, h2⟩ := heq
    rw [← h2, hm] at herr
    rw [logWarn_echo_no_error] at herr
    exact Bool.false_ne_true herr
  · simp only [POut.ok.injEq] at heq
    exact heq.1.symm
  · cases heq

/-- A Basic- or Standard-variant command whose line is rejected leaves the
store untouched. -/
theorem dispatch_error_unchanged (logC : Bool) (st : OracleState)
    (cmd : CompileCommand) (rest : List Char) (st' : OracleState)
    (msgs : List Msg)
    (h : command2variant cmd = .Basic ∨ command2variant cmd = .Standard)
    (heq : dispatch logC st cmd rest = .ok st' msgs)
    (herr : msgs.any Msg.isError = true) : st' = st := by
  cases cmd
  case Quiet => simp [command2variant] at h
  case Help => simp [command2variant] at h
  case Option => simp [command2variant] at h
  case Unknown => simp [command2variant] at h
  all_goals
    simp only [dispatch, command2variant, reduceCtorEq, if_false, ite_false] at heq
  all_goals exact parseBasic_error_unchanged _ _ _ _ _ _ heq herr

/-- A line starting with a hash scans no command name. -/
theorem parse_command_name_hash (line : List Char) (h : line.head? = some '#') :
    (parse_command_name line).1 = .Unknown := by
  cases line with
  | nil => simp at h
  | cons c t =>
    simp only [List.head?] at h
    have hc : c = '#' := by injection h
    subst hc
    simp [parse_command_name, alnumToken, List.takeWhile_cons,
      show isAlnumAscii '#' = false from rfl]

/-! ## Concrete objects shared by witnesses and counterexamples -/

/-- The pattern that accepts every target. -/
def anyMatcher : BaseMatcher := ⟨"", .Any, "", .Any, none⟩

/-- A concrete query target. -/
def t0 : MethodDescr := ⟨"java/lang/String", "indexOf", "(I)I"⟩

/-- A concrete nonempty store. -/
def stW : OracleState :=
  ⟨[⟨anyMatcher, .Print, .Bool, .boolV true⟩], true, false⟩

/-! ## The claims -/

/-- C1: the query walks the chain from the head and returns the first record
whose kind equals the requested kind and whose pattern accepts the target;
and since add_option_string prepends to the head, a newly added record of a
given kind that accepts the target is the one returned, whatever matching
records of the same kind the store already held. -/
theorem c1_match_walk_and_precedence :
    (∀ (l : List TypedMethodOptionMatcher) (t : MethodDescr)
        (cc : CompileCommand) (ty : OptionType),
      matchTM l t cc ty =
        l.find? fun r => r.option == cc && matchesTarget r.matcher t) ∧
    (∀ (logC : Bool) (st : OracleState) (pat : BaseMatcher)
        (cc : CompileCommand) (v : CValue) (t : MethodDescr) (ty : OptionType),
      matchesTarget pat t = true →
      matchTM (add_option_string logC st pat cc v).1.option_list t cc ty =
        some ⟨pat, cc, normType (command2types cc), v⟩) := by
  constructor
  · exact matchTM_eq_find
  · intro logC st pat cc v t ty h
    simp [add_option_string, matchTM, h]

/-- C1 witness: a store already holding an exclude record that accepts the
target; after adding a second exclude record whose pattern also accepts it,
the query returns the newly added one. -/
theorem c1_witness :
    matchTM (add_option_string true
        ⟨[⟨⟨"java/lang/String", .Exact, "", .Any, none⟩, .Exclude, .Bool, .boolV true⟩],
         true, false⟩
        anyMatcher .Exclude (.boolV true)).1.option_list t0 .Exclude .Bool =
      some ⟨anyMatcher, .Exclude, .Bool, .boolV true⟩ :=
  c1_match_walk_and_precedence.2 true
    ⟨[⟨⟨"java/lang/String", .Exact, "", .Any, none⟩, .Exclude, .Bool, .boolV true⟩],
     true, false⟩
    anyMatcher .Exclude (.boolV true) t0 .Bool (by decide)

/-- C2: evidence for the string-list accumulation defect.  The value text
with the wide run after the first token loses its last token: the space
overwrite misses the terminating NUL of the previous token once the cursors
have drifted, so the two inputs of the claim store different strings. -/
theorem c2_ccstrlist_divergence :
    ccstrlistScan "a b  c".toList = some (6, some "a b c") ∧
    ccstrlistScan "a  b c".toList = some (6, some "a b") ∧
    ("a b" : String) ≠ "a b c" := by
  refine ⟨by decide, by decide, by decide⟩

/-- C3 counterexample: on the input Foo.bar,Baz::qux no produced record has
owner Foo with member bar, and the dot of Foo.bar is translated to a slash
although a double colon occurs in the input. -/
theorem c3_counterexample :
    (match parse_compile_only true initState "Foo.bar,Baz::qux".toList with
     | some st =>
       (st.option_list.all fun r =>
         !(r.matcher.class_name == "Foo" && r.matcher.method_name == "bar")) &&
       (st.option_list.any fun r => r.matcher.class_name == "Foo/bar")
     | none => false) = true := by decide

/-- C3 amended: with a double colon present anywhere, the separator is a
colon for the whole input, so Foo.bar is read as a bare owner pattern with
its dot translated to a slash and an any-member match, while Baz::qux gives
owner Baz and member qux; both records are boolean compile-only records,
the last parsed at the head. -/
theorem c3_amended_records :
    parse_compile_only true initState "Foo.bar,Baz::qux".toList =
      some ⟨[⟨⟨"Baz", .Exact, "qux", .Exact, none⟩, .CompileOnly, .Bool, .boolV true⟩,
             ⟨⟨"Foo/bar", .Exact, "", .Any, none⟩, .CompileOnly, .Bool, .boolV true⟩],
            true, false⟩ := by decide

/-- C4 counterexample: a false-valued exclude record is reachable from the
parser (an option clause with an explicit bool value), its pattern accepts
the target, yet should_exclude answers false. -/
theorem c4_counterexample :
    (match parse_from_line true initState "option,*.* bool exclude false".toList with
     | .ok st _ =>
       !(should_exclude st t0) &&
       (st.option_list.any fun r =>
         r.option == CompileCommand.Exclude && matchesTarget r.matcher t0)
     | .crash => false) = true := by decide

/-- C4 amended: for stores whose exclude and compile-only records all carry
the value true (every record the Basic grammar or the legacy parser creates),
should_exclude is exactly: some exclude record accepts the target, or a
compile-only record exists and none accepts the target. -/
theorem c4_amended (st : OracleState) (t : MethodDescr)
    (hval : ∀ r ∈ st.option_list,
      (r.option = CompileCommand.Exclude ∨ r.option = CompileCommand.CompileOnly) →
      r.value = .boolV true) :
    should_exclude st t =
      ((st.option_list.any fun r =>
          r.option == CompileCommand.Exclude && matchesTarget r.matcher t) ||
       ((st.option_list.any fun r => r.option == CompileCommand.CompileOnly) &&
        !(st.option_list.any fun r =>
          r.option == CompileCommand.CompileOnly && matchesTarget r.matcher t))) := by
  have h1 := check_predicate_eq_any st .Exclude t rfl
    (fun r hr ho => hval r hr (Or.inl ho))
  have h2 := check_predicate_eq_any st .CompileOnly t rfl
    (fun r hr ho => hval r hr (Or.inr ho))
  unfold should_exclude
  rw [h1, h2, has_command_eq_any]
  cases hA : st.option_list.any fun r =>
      r.option == CompileCommand.Exclude && matchesTarget r.matcher t <;>
  cases hB : st.option_list.any fun r => r.option == CompileCommand.CompileOnly <;>
  simp

/-- A store with one all-true compile-only record and one all-true exclude
record, used by the C4 witness. -/
def stC4 : OracleState :=
  ⟨[⟨anyMatcher, .CompileOnly, .Bool, .boolV true⟩,
    ⟨⟨"Foo", .Exact, "m", .Exact, none⟩, .Exclude, .Bool, .boolV true⟩],
   true, false⟩

/-- C4 witness: the amended equation evaluated at a store with one all-true
exclude record and one all-true compile-only record. -/
theorem c4_witness :
    should_exclude stC4 t0 =
      ((stC4.option_list.any fun r =>
          r.option == CompileCommand.Exclude && matchesTarget r.matcher t0) ||
       ((stC4.option_list.any fun r => r.option == CompileCommand.CompileOnly) &&
        !(stC4.option_list.any fun r =>
          r.option == CompileCommand.CompileOnly && matchesTarget r.matcher t0))) :=
  c4_amended stC4 t0 (by decide)

/-- C5 counterexample: an option line whose first clause commits an inline
record and whose second clause is an unknown name; the line is rejected with
an error message, yet the record of the first clause stays in the store. -/
theorem c5_counterexample :
    parse_from_line true initState
        "option,Foo.bar() inline NoSuchOption".toList =
      .ok ⟨[⟨⟨"Foo", .Exact, "bar()", .Exact, none⟩, .Inline, .Bool, .boolV true⟩],
           false, false⟩
        [.echo .Option, .unrecognized] ∧
    Msg.isError .unrecognized = true := by
  refine ⟨by decide, by decide⟩

/-- C5 amended: the atomic per-line commit holds for the Basic- and
Standard-variant grammars: when such a line is rejected with an error
message the store is exactly as before.  Option lines instead commit clause
by clause, as the counterexample shows. -/
theorem c5_amended_atomicity (logC : Bool) (st : OracleState) (line : List Char)
    (st' : OracleState) (msgs : List Msg)
    (hvar : command2variant (parse_command_name line).1 = .Basic ∨
            command2variant (parse_command_name line).1 = .Standard)
    (heq : parse_from_line logC st line = .ok st' msgs)
    (herr : msgs.any Msg.isError = true) :
    st' = st := by
  unfold parse_from_line at heq
  by_cases h0 : line = []
  · rw [h0] at hvar
    simp [parse_command_name, alnumToken, command2variant] at hvar
  · by_cases h1 : line.head? = some '#'
    · rw [parse_command_name_hash line h1] at hvar
      simp [command2variant] at hvar
    · simp only [h0, h1, if_false, if_neg, ite_false] at heq
      exact dispatch_error_unchanged _ _ _ _ _ _ hvar heq herr

/-- C5 witness: a Basic line with a missing pattern is rejected and the
(nonempty) store is unchanged. -/
theorem c5_witness :
    parse_from_line true stW "exclude".toList =
        .ok stW [.parseError "Could not parse method pattern"] ∧
    stW = stW :=
  ⟨by decide,
   c5_amended_atomicity true stW "exclude".toList stW
     [.parseError "Could not parse method pattern"]
     (Or.inl (by decide)) (by decide) (by decide)⟩

/-- The boolean value grammar as the claim states it: empty remaining text
is the true shorthand; otherwise the next alphabetic token must be exactly
the literal true or false; anything else is an error. -/
def bool_value_spec (line : List Char) : Option Bool :=
  let l := line.drop (skip_whitespace line)
  if l = [] then some true
  else
    let tok := alphaToken l
    if tok = "true".toList then some true
    else if tok = "false".toList then some false
    else none

/-- The characters the boolean scan consumes. -/
def boolConsumed (line : List Char) : Nat :=
  let k := skip_whitespace line
  let l := line.drop k
  if l = [] then k else k + (alphaToken l).length

/-- C6: the boolean branch of scan_value commits the record exactly as the
claimed grammar prescribes (true on empty trailing text, the case-sensitive
literals true and false, an error otherwise with nothing stored). -/
theorem c6_bool_scan (line : List Char) (pat : BaseMatcher) (cc : CompileCommand)
    (st : OracleState) (logC : Bool) :
    scan_value .Bool line (some pat) cc st logC =
      match bool_value_spec line with
      | some b =>
        .ok (boolConsumed line)
          (add_option_string logC st pat cc (.boolV b)).1
          (add_option_string logC st pat cc (.boolV b)).2
      | none => .err (valueErr cc .Bool) := by
  simp only [scan_value, bool_value_spec, boolConsumed]
  by_cases h0 : line.drop (skip_whitespace line) = []
  · simp [h0]
  · by_cases h1 : alphaToken (line.drop (skip_whitespace line)) = []
    · simp [h0, h1]
    · by_cases h2 : alphaToken (line.drop (skip_whitespace line)) =
        ['t', 'r', 'u', 'e']
      · simp [h0, h1, h2]
      · by_cases h3 : alphaToken (line.drop (skip_whitespace line)) =
          ['f', 'a', 'l', 's', 'e']
        · simp [h0, h1, h2, h3]
        · simp [h0, h1, h2, h3]

/-- C7: the typed-value query with the lenient flag reports absent on a
value-kind mismatch instead of aborting, while the strict mode turns the
same mismatch into an assertion failure. -/
theorem c7_lenient_vs_strict (sought : OptionType) (st : OracleState)
    (t : MethodDescr) (cc : CompileCommand)
    (h : sought ≠ normType (command2types cc)) :
    has_option_value sought st t cc true = .absent ∧
    has_option_value sought st t cc false = .assertFail := by
  constructor <;> simp [has_option_value, h]

/-- C7 witness: requesting an intx value for the boolean exclude kind. -/
theorem c7_witness :
    has_option_value .Intx initState t0 .Exclude true = .absent ∧
    has_option_value .Intx initState t0 .Exclude false = .assertFail :=
  c7_lenient_vs_strict .Intx initState t0 .Exclude (by decide)

/-- C8 counterexample: a false-valued log record is reachable from the
parser, its pattern accepts the target and the logging flag is on, yet
should_log answers false. -/
theorem c8_counterexample :
    (match parse_from_line true initState "option,*.* bool log false".toList with
     | .ok st _ =>
       !(should_log true st t0) &&
       (st.option_list.any fun r =>
         r.option == CompileCommand.Log && matchesTarget r.matcher t0)
     | .crash => false) = true := by decide

/-- C8 amended: for stores whose log records all carry the value true (every
record the Basic grammar creates), should_log is exactly: the logging flag
is on and either no log record exists or some log record accepts the target;
in particular it is false whenever the flag is off. -/
theorem c8_amended (logC : Bool) (st : OracleState) (t : MethodDescr)
    (hval : ∀ r ∈ st.option_list, r.option = CompileCommand.Log →
      r.value = .boolV true) :
    should_log logC st t =
      (logC &&
       (!(st.option_list.any fun r => r.option == CompileCommand.Log) ||
        (st.option_list.any fun r =>
          r.option == CompileCommand.Log && matchesTarget r.matcher t))) := by
  have h1 := check_predicate_eq_any st .Log t rfl hval
  unfold should_log
  rw [h1, has_command_eq_any]
  cases logC <;>
  cases hB : st.option_list.any fun r => r.option == CompileCommand.Log <;>
  simp

/-- A store with one all-true log record, used by the C8 witness. -/
def stC8 : OracleState :=
  ⟨[⟨⟨"Foo", .Exact, "m", .Exact, none⟩, .Log, .Bool, .boolV true⟩], false, false⟩

/-- C8 witness: the amended equation evaluated at a store with one all-true
log record whose pattern rejects the target. -/
theorem c8_witness :
    should_log true stC8 t0 =
      (true &&
       (!(stC8.option_list.any fun r => r.option == CompileCommand.Log) ||
        (stC8.option_list.any fun r =>
          r.option == CompileCommand.Log && matchesTarget r.matcher t0))) :=
  c8_amended true stC8 t0 (by decide)

/-- A sequence of store insertions, each through add_option_string. -/
def applyAdds (logC : Bool) :
    OracleState → List (BaseMatcher × CompileCommand × CValue) → OracleState
  | st, [] => st
  | st, op :: ops => applyAdds logC (add_option_string logC st op.1 op.2.1 op.2.2).1 ops

/-- The any_set flag after a sequence of insertions. -/
theorem applyAdds_any_set (logC : Bool) (st : OracleState)
    (ops : List (BaseMatcher × CompileCommand × CValue)) :
    (applyAdds logC st ops).any_set =
      (st.any_set || ops.any fun op =>
        !(op.2.1 == CompileCommand.DontInline) &&
        !(op.2.1 == CompileCommand.Inline) &&
        !(op.2.1 == CompileCommand.Log)) := by
  induction ops generalizing st with
  | nil => simp [applyAdds]
  | cons op ops ih =>
    simp [applyAdds, add_option_string, ih, Bool.or_assoc]

/-- C9: after any sequence of insertions, has_any_option holds exactly when
the flag already held before or some inserted record has a kind other than
DontInline, Inline and Log; in particular insertions of only those three
kinds leave the flag false, and the flag is never cleared once set. -/
theorem c9_any_set_characterization (logC : Bool) (st : OracleState)
    (ops : List (BaseMatcher × CompileCommand × CValue)) :
    has_any_option (applyAdds logC st ops) =
      (st.any_set || ops.any fun op =>
        !(op.2.1 == CompileCommand.DontInline) &&
        !(op.2.1 == CompileCommand.Inline) &&
        !(op.2.1 == CompileCommand.Log)) := by
  rw [has_any_option, applyAdds_any_set]

/-- C10: an empty line or a line starting with a hash returns at once,
with the store, the any-set flag and the quiet flag untouched and no
console output. -/
theorem c10_comment_lines (logC : Bool) (st : OracleState) (line : List Char)
    (h : line = [] ∨ line.head? = some '#') :
    parse_from_line logC st line = .ok st [] := by
  rcases h with h | h
  · subst h; rfl
  · cases line with
    | nil => simp at h
    | cons c t =>
      have hc : c = '#' := by simpa using h
      subst hc
      simp [parse_from_line]

/-- C10 witness: a hash line against a nonempty store. -/
theorem c10_witness :
    parse_from_line true stW "# a comment".toList = .ok stW [] :=
  c10_comment_lines true stW "# a comment".toList (Or.inr (by decide))

end CompilerOracle
